import Mathlib

/-!
Verification of the parallel word-frequency / web-crawler benchmark repository.

Shallow embedding of the three core modules:
  * src/cpu_main.py  — CPU-bound word-histogram pool (process pool),
  * src/main.py      — I/O-bound page-fetch pool (thread pool),
  * src/bench_workers.py — benchmark orchestrator (child-process sweep).

Modelling conventions:
  * a Python Counter over strings is represented as the Multiset of its
    elements (dict value = multiset multiplicity; Counter.update = multiset
    addition; len(counter) = number of distinct elements);
  * file bytes are a List Nat; the filesystem is a function
    String → Option (List Nat), where none models an OS-level read error;
  * the network is a function String → FetchOutcome describing what urlopen
    does for each URL; wall-clock readings are environment functions;
  * the non-deterministic completion order of a worker pool is an explicit
    "arrival" list, a permutation of the submitted work-unit list;
  * Python float arithmetic is modelled exactly over ℚ.
-/

/-! ## Lexicographic string order (Python string comparison by code points) -/

/-- Lexicographic less-or-equal on char lists, comparing Unicode code points,
as Python compares strings. -/
def charListLeB : List Char → List Char → Bool
  | [], _ => true
  | _ :: _, [] => false
  | a :: as, b :: bs =>
    if a.toNat < b.toNat then true
    else if b.toNat < a.toNat then false
    else charListLeB as bs

/-- Python string less-or-equal. -/
def strLeB (a b : String) : Bool := charListLeB a.data b.data

/-- Ordering of records by a string key, used for the `sort(key=...)` calls. -/
def keyLe {α : Type} (key : α → String) (a b : α) : Prop := strLeB (key a) (key b) = true

instance {α : Type} (key : α → String) : DecidableRel (keyLe key) :=
  fun _ _ => inferInstanceAs (Decidable (_ = true))

theorem charListLeB_total : ∀ xs ys, charListLeB xs ys = true ∨ charListLeB ys xs = true := by
  intro xs
  induction xs with
  | nil => intro ys; left; rfl
  | cons a as ih =>
    intro ys
    cases ys with
    | nil => right; rfl
    | cons b bs =>
      by_cases h1 : a.toNat < b.toNat
      · left; simp [charListLeB, h1]
      · by_cases h2 : b.toNat < a.toNat
        · right; simp [charListLeB, h1, h2]
        · rcases ih bs with h | h
          · left; simp [charListLeB, h1, h2, h]
          · right; simp [charListLeB, h1, h2, h]

theorem charListLeB_trans : ∀ xs ys zs, charListLeB xs ys = true → charListLeB ys zs = true →
    charListLeB xs zs = true := by
  intro xs
  induction xs with
  | nil => intro ys zs _ _; rfl
  | cons a as ih =>
    intro ys zs h1 h2
    cases ys with
    | nil => simp [charListLeB] at h1
    | cons b bs =>
      cases zs with
      | nil => simp [charListLeB] at h2
      | cons c cs =>
        simp only [charListLeB] at h1 h2 ⊢
        split_ifs at h1 h2 ⊢ with hab hba hbc hcb hac hca
        all_goals first
          | rfl
          | omega
          | (exact ih bs cs h1 h2)

theorem charListLeB_antisymm : ∀ xs ys, charListLeB xs ys = true → charListLeB ys xs = true →
    xs = ys := by
  intro xs
  induction xs with
  | nil =>
    intro ys _ h2
    cases ys with
    | nil => rfl
    | cons b bs => simp [charListLeB] at h2
  | cons a as ih =>
    intro ys h1 h2
    cases ys with
    | nil => simp [charListLeB] at h1
    | cons b bs =>
      simp only [charListLeB] at h1 h2
      split_ifs at h1 h2 with hab hba
      · omega
      · have hn : a.toNat = b.toNat := by omega
        have hab2 : a = b :=
          Char.eq_of_val_eq (UInt32.eq_of_toBitVec_eq (BitVec.eq_of_toNat_eq hn))
        rw [hab2, ih bs h1 h2]

theorem strLeB_total (a b : String) : strLeB a b = true ∨ strLeB b a = true :=
  charListLeB_total a.data b.data

theorem strLeB_trans {a b c : String} (h1 : strLeB a b = true) (h2 : strLeB b c = true) :
    strLeB a c = true :=
  charListLeB_trans a.data b.data c.data h1 h2

theorem strLeB_antisymm {a b : String} (h1 : strLeB a b = true) (h2 : strLeB b a = true) :
    a = b := by
  have h := charListLeB_antisymm a.data b.data h1 h2
  cases a; cases b; exact congrArg String.mk h

instance {α : Type} (key : α → String) : IsTotal α (keyLe key) :=
  ⟨fun a b => strLeB_total (key a) (key b)⟩

instance {α : Type} (key : α → String) : IsTrans α (keyLe key) :=
  ⟨fun _ _ _ h1 h2 => strLeB_trans h1 h2⟩

/-! ## Tokenizer (regex \b\w+\b over Unicode text, cpu_main._WORD_RE / main._WORD_RE)

A regex match of \b\w+\b is a maximal run of word characters. The embedding's
word-character predicate covers the alphanumeric characters and the underscore
(the ASCII core of Python's re.UNICODE \w; none of the verified claims depends
on the exact extent of the character class, only on "maximal run"). -/

/-- Word character of the tokenizer: alphanumeric or underscore (regex \w). -/
def isWordChar (c : Char) : Bool := c.isAlphanum || c == '_'

/-- Fuel-indexed scanner producing the list of maximal word-character runs.
The fuel is the length of the list, which each step strictly decreases. -/
def wordTokensGo : Nat → List Char → List String
  | 0, _ => []
  | _ + 1, [] => []
  | fuel + 1, c :: cs =>
    if isWordChar c then
      String.mk ((c :: cs).takeWhile isWordChar) :: wordTokensGo fuel ((c :: cs).dropWhile isWordChar)
    else wordTokensGo fuel cs

/-- List of tokens of a text: all maximal runs of word characters, in order.
Embeds `_WORD_RE.findall(text)`. -/
def wordTokens (l : List Char) : List String := wordTokensGo l.length l

/-- Embeds `main._count_words`: the number of \b\w+\b matches in a string
(no case folding — main.py counts on the raw extracted text). -/
def countWords (s : String) : Nat := (wordTokens s.data).length

/-! ## UTF-8 decoding (Python `open(..., encoding="utf-8", errors="replace")`)

The CPU analyzer reads file bytes and decodes them as UTF-8 with the `replace`
error handler, which never raises: every maximal invalid subsequence becomes
one U+FFFD replacement character. The strict decoder (error handler `strict`,
Python's default) is also embedded to witness byte sequences on which strict
decoding fails while the analyzer still succeeds. -/

/-- Replacement character U+FFFD emitted by the `replace` error handler. -/
def replChar : Char := Char.ofNat 0xFFFD

/-- Whether a byte is a UTF-8 continuation byte (0x80–0xBF). -/
def isContByte (b : Nat) : Bool := 0x80 ≤ b && b ≤ 0xBF

/-- Valid range of the second byte given the leading byte of a multi-byte
UTF-8 sequence (excludes overlong encodings, surrogates and values above
U+10FFFF). -/
def validSecondByte (b b2 : Nat) : Bool :=
  if b == 0xE0 then 0xA0 ≤ b2 && b2 ≤ 0xBF
  else if b == 0xED then 0x80 ≤ b2 && b2 ≤ 0x9F
  else if b == 0xF0 then 0x90 ≤ b2 && b2 ≤ 0xBF
  else if b == 0xF4 then 0x80 ≤ b2 && b2 ≤ 0x8F
  else isContByte b2

/-- Fuel-indexed UTF-8 decoder with the `replace` error handler. The fuel is
the byte count; every step consumes at least one byte. -/
def utf8ReplaceGo : Nat → List Nat → List Char
  | 0, _ => []
  | _ + 1, [] => []
  | fuel + 1, b :: rest =>
    if b ≤ 0x7F then Char.ofNat b :: utf8ReplaceGo fuel rest
    else if 0xC2 ≤ b && b ≤ 0xDF then
      match rest with
      | [] => [replChar]
      | b2 :: rest2 =>
        if isContByte b2 then
          Char.ofNat ((b - 0xC0) * 0x40 + (b2 - 0x80)) :: utf8ReplaceGo fuel rest2
        else replChar :: utf8ReplaceGo fuel rest
    else if 0xE0 ≤ b && b ≤ 0xEF then
      match rest with
      | [] => [replChar]
      | b2 :: rest2 =>
        if validSecondByte b b2 then
          match rest2 with
          | [] => [replChar]
          | b3 :: rest3 =>
            if isContByte b3 then
              Char.ofNat ((b - 0xE0) * 0x1000 + (b2 - 0x80) * 0x40 + (b3 - 0x80)) ::
                utf8ReplaceGo fuel rest3
            else replChar :: utf8ReplaceGo fuel rest2
        else replChar :: utf8ReplaceGo fuel rest
    else if 0xF0 ≤ b && b ≤ 0xF4 then
      match rest with
      | [] => [replChar]
      | b2 :: rest2 =>
        if validSecondByte b b2 then
          match rest2 with
          | [] => [replChar]
          | b3 :: rest3 =>
            if isContByte b3 then
              match rest3 with
              | [] => [replChar]
              | b4 :: rest4 =>
                if isContByte b4 then
                  Char.ofNat ((b - 0xF0) * 0x40000 + (b2 - 0x80) * 0x1000 +
                      (b3 - 0x80) * 0x40 + (b4 - 0x80)) :: utf8ReplaceGo fuel rest4
                else replChar :: utf8ReplaceGo fuel rest3
            else replChar :: utf8ReplaceGo fuel rest2
        else replChar :: utf8ReplaceGo fuel rest
    else replChar :: utf8ReplaceGo fuel rest

/-- Total UTF-8 decoding with replacement: Python's
`bytes.decode("utf-8", errors="replace")`. Never fails. -/
def utf8DecodeReplace (bytes : List Nat) : List Char := utf8ReplaceGo bytes.length bytes

/-- Fuel-indexed strict UTF-8 decoder: fails (none) on the first invalid
sequence, like Python's default `strict` error handler. -/
def utf8StrictGo : Nat → List Nat → Option (List Char)
  | _, [] => some []
  | 0, _ :: _ => none
  | fuel + 1, b :: rest =>
    if b ≤ 0x7F then (utf8StrictGo fuel rest).map (Char.ofNat b :: ·)
    else if 0xC2 ≤ b && b ≤ 0xDF then
      match rest with
      | [] => none
      | b2 :: rest2 =>
        if isContByte b2 then
          (utf8StrictGo fuel rest2).map (Char.ofNat ((b - 0xC0) * 0x40 + (b2 - 0x80)) :: ·)
        else none
    else if 0xE0 ≤ b && b ≤ 0xEF then
      match rest with
      | [] => none
      | b2 :: rest2 =>
        if validSecondByte b b2 then
          match rest2 with
          | [] => none
          | b3 :: rest3 =>
            if isContByte b3 then
              (utf8StrictGo fuel rest3).map
                (Char.ofNat ((b - 0xE0) * 0x1000 + (b2 - 0x80) * 0x40 + (b3 - 0x80)) :: ·)
            else none
        else none
    else if 0xF0 ≤ b && b ≤ 0xF4 then
      match rest with
      | [] => none
      | b2 :: rest2 =>
        if validSecondByte b b2 then
          match rest2 with
          | [] => none
          | b3 :: rest3 =>
            if isContByte b3 then
              match rest3 with
              | [] => none
              | b4 :: rest4 =>
                if isContByte b4 then
                  (utf8StrictGo fuel rest4).map
                    (Char.ofNat ((b - 0xF0) * 0x40000 + (b2 - 0x80) * 0x1000 +
                        (b3 - 0x80) * 0x40 + (b4 - 0x80)) :: ·)
                else none
            else none
        else none
    else none

/-- Strict UTF-8 decoding: Python's `bytes.decode("utf-8")`, which raises
UnicodeDecodeError (here: none) on any invalid byte sequence. -/
def utf8DecodeStrict (bytes : List Nat) : Option (List Char) := utf8StrictGo bytes.length bytes

/-! ## CPU worker pool (src/cpu_main.py) -/

/-- Embeds the dataclass `FileCount` of cpu_main.py. The Counter field
`counts : dict[str, int]` is represented as the multiset of the file's
tokens. -/
structure FileCount where
  path : String
  tokens : Nat
  counts : Multiset String
deriving DecidableEq

/-- Core of `count_words_in_file` once the file's bytes are in hand:
decode UTF-8 with replacement, lower-case, take the \b\w+\b matches,
record their number and their frequency map. -/
def mkFileCount (path : String) (bytes : List Nat) : FileCount :=
  let toks := wordTokens ((utf8DecodeReplace bytes).map Char.toLower)
  { path := path, tokens := toks.length, counts := (toks : Multiset String) }

/-- Embeds `cpu_main.count_words_in_file`. The filesystem is a function
from path to the file's bytes; none models an OS-level read error, which
is the only way this function can fail (decoding uses errors="replace"). -/
def count_words_in_file (fs : String → Option (List Nat)) (path : String) : Option FileCount :=
  (fs path).map (mkFileCount path)

/-- Embeds `cpu_main._merge_counts`: `total.update(partial)` adds the
per-file counts into the global Counter. -/
def merge_counts (total : Multiset String) (part : Multiset String) : Multiset String :=
  total + part

/-- Folding `_merge_counts` over per-file frequency maps in arrival order,
starting from the empty Counter, as the loop in `cpu_main.run` does. -/
def mergeAll (l : List (Multiset String)) : Multiset String :=
  l.foldl merge_counts 0

/-- Sort key of `per_file.sort(key=lambda x: x.path)`. -/
abbrev pathLe : FileCount → FileCount → Prop := keyLe FileCount.path

/-- Result collection of `cpu_main.run`: one `count_words_in_file` result per
work unit in completion order; the first worker exception aborts the whole
run (`fut.result()` re-raises), so a single failed read yields none. -/
def collectCounts (fs : String → Option (List Nat)) : List String → Option (List FileCount)
  | [] => some []
  | p :: ps =>
    match count_words_in_file fs p, collectCounts fs ps with
    | some fc, some rest => some (fc :: rest)
    | _, _ => none

/-- Embeds `cpu_main.run`. The `workers` argument only selects how many
pool processes exist; its scheduling effect is captured by the `arrival`
list (the order in which `as_completed` yields the futures), a permutation
of the submitted path list. Returns the path-sorted per-file results and
the merged global frequency table. -/
def runCpu (fs : String → Option (List Nat)) (workers : Nat) (arrival : List String) :
    Option (List FileCount × Multiset String) :=
  let _ := workers
  (collectCounts fs arrival).map fun results =>
    (List.insertionSort pathLe results, mergeAll (results.map FileCount.counts))

/-- Embeds `len(total)` in cpu_main.main: the number of distinct tokens in
the merged table. -/
def uniqueTokens (total : Multiset String) : Nat := total.toFinset.card

/-- Embeds `sum(fc.tokens for fc in per_file)` in cpu_main.main. -/
def cpuTotalTokens (per_file : List FileCount) : Nat := (per_file.map FileCount.tokens).sum

/-- Meta block of the CPU RunResult document written by cpu_main.main. -/
structure CpuMetaDoc where
  mode : String
  workers : Nat
  files : Nat
  total_tokens : Nat
  unique_tokens : Nat
  total_elapsed_ms : Nat
deriving DecidableEq

/-- CPU RunResult document: meta plus the per_file payload (path and token
count per file, in path-sorted order). The top_words list is omitted from
the model: its tie order depends on hash-map insertion order and no claim
under verification refers to it. -/
structure CpuRunDoc where
  meta : CpuMetaDoc
  per_file : List (String × Nat)
deriving DecidableEq

/-- Embeds `cpu_main.main` after argument parsing: `paths` is the resolved
input listing, `arrival` the completion order of the pool, `elapsedMs` the
wall-clock reading for the `run` call. Returns the process exit code and
the RunResult document written (none when nothing is written). An uncaught
worker exception terminates the interpreter with exit code 1 before any
write. -/
def cpu_main (fs : String → Option (List Nat)) (paths : List String)
    (workersArg : Nat) (arrival : List String) (elapsedMs : Nat) : Nat × Option CpuRunDoc :=
  if paths = [] then (2, none)
  else
    let workers := max 1 workersArg
    match runCpu fs workers arrival with
    | none => (1, none)
    | some (per_file, total) =>
      (0, some
        { meta :=
          { mode := "cpu-process-pool"
            workers := workers
            files := per_file.length
            total_tokens := cpuTotalTokens per_file
            unique_tokens := uniqueTokens total
            total_elapsed_ms := elapsedMs }
          per_file := per_file.map fun fc => (fc.path, fc.tokens) })

/-! ## I/O worker pool (src/main.py)

The network environment assigns each URL a `FetchOutcome`: what `urlopen`
plus body decoding does for that URL. A per-fetch timeout surfaces from
urllib as `URLError(socket.timeout)`, i.e. as the `urlError` outcome. HTML
text extraction (html.parser driving `_TextExtractor`) is an environment
function giving the data chunks and the page title; `get_text` joins the
chunks with single spaces. Wall-clock elapsed time per fetch is an
environment function of the URL. -/

/-- Outcome of one urlopen call plus body decode, per URL. -/
inductive FetchOutcome where
  | ok (status : Option Nat) (body : String)
  | httpError (code : Nat)
  | urlError (reason : String)
  | otherExc (ename : String) (msg : String)
deriving DecidableEq

/-- Outcome of a fetch whose per-fetch timeout fired: urllib raises
URLError wrapping the socket timeout, so the worker sees a URLError. -/
def timeoutOutcome : FetchOutcome := .urlError "timed out"

/-- Embeds the dataclass `FetchResult` of main.py. -/
structure FetchResult where
  url : String
  ok : Bool
  status : Option Nat
  elapsed_ms : Nat
  title : Option String
  word_count : Option Nat
  error : Option String
deriving DecidableEq

/-- Text assembled by `_TextExtractor.get_text()`: the parser's data chunks
joined with single spaces. -/
def extractedText (chunks : List String) : String := String.intercalate " " chunks

/-- Embeds `main.fetch_and_analyze`. `web` is the network environment,
`parse` the HTML parser environment (data chunks and title of a body),
`clock` the wall-clock elapsed milliseconds of the fetch attempt for each
URL, `timeoutS` the per-fetch timeout handed to urlopen (its effect lives
in `web`). Every branch of the Python try/except returns a FetchResult;
no exception escapes. -/
def fetch_and_analyze (web : String → FetchOutcome)
    (parse : String → List String × Option String) (clock : String → Nat)
    (timeoutS : ℚ) (url : String) : FetchResult :=
  let _ := timeoutS
  match web url with
  | .ok status body =>
    let p := parse body
    { url := url, ok := true, status := status, elapsed_ms := clock url,
      title := p.2, word_count := some (countWords (extractedText p.1)), error := none }
  | .httpError code =>
    { url := url, ok := false, status := some code, elapsed_ms := clock url,
      title := none, word_count := none, error := some ("HTTPError: " ++ toString code) }
  | .urlError reason =>
    { url := url, ok := false, status := none, elapsed_ms := clock url,
      title := none, word_count := none, error := some ("URLError: " ++ reason) }
  | .otherExc ename msg =>
    { url := url, ok := false, status := none, elapsed_ms := clock url,
      title := none, word_count := none, error := some ("Exception: " ++ ename ++ ": " ++ msg) }

/-- Spec error taxonomy for failed units. -/
inductive UnitErrorKind where
  | httpStatusError
  | transportError
  | otherException
deriving DecidableEq

/-- Classification of a recorded error string into the spec taxonomy,
reading the prefix the code writes in each except branch. -/
def classifyError (e : Option String) : Option UnitErrorKind :=
  match e with
  | none => none
  | some s =>
    if s.data.take 9 = "HTTPError".data then some .httpStatusError
    else if s.data.take 8 = "URLError".data then some .transportError
    else if s.data.take 9 = "Exception".data then some .otherException
    else none

/-- Sort key of `results.sort(key=lambda r: r.url)`. -/
abbrev urlLe : FetchResult → FetchResult → Prop := keyLe FetchResult.url

/-- Embeds `main.run`: every submitted URL yields exactly one FetchResult
(collected in completion order `arrival`, a permutation of the URL list),
and the list is sorted by URL before being returned. The worker count only
selects the thread pool size; its scheduling effect is captured by
`arrival`. -/
def runIo (web : String → FetchOutcome) (parse : String → List String × Option String)
    (clock : String → Nat) (workers : Nat) (timeoutS : ℚ) (arrival : List String) :
    List FetchResult :=
  let _ := workers
  List.insertionSort urlLe (arrival.map (fetch_and_analyze web parse clock timeoutS))

/-- Meta block of the I/O RunResult document written by main.main. -/
structure IoMetaDoc where
  workers : Nat
  timeout_s : ℚ
  total_urls : Nat
  ok : Nat
  failed : Nat
  total_elapsed_ms : Nat
  avg_elapsed_ms : Nat
deriving DecidableEq

/-- I/O RunResult document: meta plus one record per URL. -/
structure IoRunDoc where
  meta : IoMetaDoc
  results : List FetchResult
deriving DecidableEq

/-- Embeds `main.main` after argument parsing: `urls` is the resolved URL
listing, `arrival` the completion order, `elapsedMs` the wall-clock reading
for the `run` call. Returns the process exit code and the document written
(none when nothing is written). Failed fetches are data, not process
failures: the exit code is 0 whenever the listing is non-empty. -/
def io_main (web : String → FetchOutcome) (parse : String → List String × Option String)
    (clock : String → Nat) (urls : List String) (workersArg : Nat) (timeoutS : ℚ)
    (arrival : List String) (elapsedMs : Nat) : Nat × Option IoRunDoc :=
  if urls = [] then (2, none)
  else
    let results := runIo web parse clock (max 1 workersArg) timeoutS arrival
    let okCount := (results.filter FetchResult.ok).length
    (0, some
      { meta :=
        { workers := max 1 workersArg
          timeout_s := timeoutS
          total_urls := results.length
          ok := okCount
          failed := results.length - okCount
          total_elapsed_ms := elapsedMs
          avg_elapsed_ms := (results.map FetchResult.elapsed_ms).sum / max 1 results.length }
        results := results })

/-! ## Whitespace tokenization (spec wording for C9)

Modelled from the spec: "count whitespace-delimited word tokens in the
extracted text". This is the spec-side definition, to be compared with the
code's `_count_words` (which counts \b\w+\b matches instead). -/

/-- Fuel-indexed counter of maximal runs of non-whitespace characters. -/
def wsTokensGo : Nat → List Char → Nat
  | 0, _ => 0
  | _ + 1, [] => 0
  | fuel + 1, c :: cs =>
    if c.isWhitespace then wsTokensGo fuel cs
    else 1 + wsTokensGo fuel ((c :: cs).dropWhile (fun x => !x.isWhitespace))

/-- Modelled from the spec: the number of whitespace-delimited tokens of a
string (maximal runs of non-whitespace characters). -/
def whitespaceTokenCount (s : String) : Nat := wsTokensGo s.data.length s.data

/-! ## Benchmark orchestrator (src/bench_workers.py)

A child Workload Runner invocation is an environment function from the
worker count to the pair (exit code, RunResult meta read back from the
JSON file), with none standing for an absent or malformed document. The
orchestrator's own wall-clock measurement of each child is another
environment function. -/

/-- Embeds the dataclass `CpuRow` of bench_workers.py. -/
structure CpuRow where
  workers : Nat
  elapsed_ms : Nat
  files : Nat
  total_tokens : Nat
  unique_tokens : Nat
deriving DecidableEq

/-- Embeds the dataclass `CrawlerRow` of bench_workers.py. -/
structure CrawlerRow where
  workers : Nat
  elapsed_ms : Nat
  urls : Nat
  ok : Nat
  failed : Nat
  avg_per_url_ms : Nat
deriving DecidableEq

/-- Embeds `meta.get("total_elapsed_ms", wall_ms) or wall_ms`: a missing
field is modelled as 0, and a zero (falsy) value falls back to the
orchestrator's wall-clock measurement. -/
def effectiveElapsed (docElapsed wallMs : Nat) : Nat :=
  if docElapsed = 0 then wallMs else docElapsed

/-- Row of `_bench_cpu` built from one child's RunResult meta. -/
def cpuRowOfMeta (m : CpuMetaDoc) (wallMs workers : Nat) : CpuRow :=
  { workers := workers
    elapsed_ms := effectiveElapsed m.total_elapsed_ms wallMs
    files := m.files
    total_tokens := m.total_tokens
    unique_tokens := m.unique_tokens }

/-- Loop body of `_bench_cpu` over worker counts `w, w+1, ...` for `n`
runs. `_run_script_with_progress` raises SystemExit on a non-zero child
exit code, aborting the remaining sweep; `_load_json` raises on an absent
or malformed document (none), the distinct contract-violation error. -/
def benchCpuRuns (child : Nat → Nat × Option CpuMetaDoc) (wall : Nat → Nat) :
    Nat → Nat → Except String (List CpuRow)
  | _, 0 => .ok []
  | w, n + 1 =>
    let r := child w
    if r.1 ≠ 0 then .error ("Błąd uruchomienia (" ++ toString r.1 ++ ")")
    else
      match r.2 with
      | none => .error "JSON output must be an object"
      | some m => (benchCpuRuns child wall (w + 1) n).map fun rows =>
          cpuRowOfMeta m (wall w) w :: rows

/-- Embeds `_bench_cpu`: runs the child once per worker count in
`[wmin, wmax]`, strictly sequentially, aborting the sweep on the first
failure. -/
def bench_cpu (child : Nat → Nat × Option CpuMetaDoc) (wall : Nat → Nat)
    (wmin wmax : Nat) : Except String (List CpuRow) :=
  benchCpuRuns child wall wmin (wmax + 1 - wmin)

/-- Embeds `float(base_ms) / r.elapsed_ms if (base_ms and r.elapsed_ms)
else None`: the speedup entry of a summary row. Python float division is
modelled exactly over ℚ. -/
def speedupVs1 (baseMs elapsedMs : Nat) : Option ℚ :=
  if baseMs ≠ 0 ∧ elapsedMs ≠ 0 then some ((baseMs : ℚ) / (elapsedMs : ℚ)) else none

/-- Embeds `rows[0].elapsed_ms if rows else 0`: the baseline elapsed time
is taken from the first row of the sweep. -/
def cpuBaseMs (rows : List CpuRow) : Nat :=
  match rows.head? with
  | some r => r.elapsed_ms
  | none => 0

/-- Embeds `int(r.total_tokens / max(0.001, (r.elapsed_ms / 1000)))`. -/
def tokPerS (tokens elapsedMs : Nat) : ℤ :=
  ((tokens : ℚ) / max (1 / 1000 : ℚ) ((elapsedMs : ℚ) / 1000)).floor

/-- Summary row of the CPU sweep as written to the BenchmarkSummary JSON. -/
structure CpuSummaryRow where
  workers : Nat
  elapsed_ms : Nat
  files : Nat
  total_tokens : Nat
  unique_tokens : Nat
  tok_per_s : ℤ
  speedup_vs_1 : Option ℚ
deriving DecidableEq

/-- One summary row of the CPU sweep, from a bench row and the baseline. -/
def mkCpuSummaryRow (baseMs : Nat) (r : CpuRow) : CpuSummaryRow :=
  { workers := r.workers
    elapsed_ms := r.elapsed_ms
    files := r.files
    total_tokens := r.total_tokens
    unique_tokens := r.unique_tokens
    tok_per_s := tokPerS r.total_tokens r.elapsed_ms
    speedup_vs_1 := speedupVs1 baseMs r.elapsed_ms }

/-- Embeds the `rows` list of the CPU BenchmarkSummary document built in
bench_workers.main. -/
def cpuSummaryRows (rows : List CpuRow) : List CpuSummaryRow :=
  rows.map (mkCpuSummaryRow (cpuBaseMs rows))

/-- Baseline of the crawler sweep, same shape as `cpuBaseMs`. -/
def crawlerBaseMs (rows : List CrawlerRow) : Nat :=
  match rows.head? with
  | some r => r.elapsed_ms
  | none => 0

/-- Summary row of the crawler sweep as written to the BenchmarkSummary
JSON. -/
structure CrawlerSummaryRow where
  workers : Nat
  elapsed_ms : Nat
  urls : Nat
  ok : Nat
  failed : Nat
  avg_per_url_ms : Nat
  urls_per_s : Option ℤ
  speedup_vs_1 : Option ℚ
deriving DecidableEq

/-- One summary row of the crawler sweep, from a bench row and the
baseline; embeds the row dictionary built in bench_workers.main for
mode=crawler. -/
def mkCrawlerSummaryRow (baseMs : Nat) (r : CrawlerRow) : CrawlerSummaryRow :=
  { workers := r.workers
    elapsed_ms := r.elapsed_ms
    urls := r.urls
    ok := r.ok
    failed := r.failed
    avg_per_url_ms := r.avg_per_url_ms
    urls_per_s :=
      if r.elapsed_ms ≠ 0 then
        some (((r.urls : ℚ) / max (1 / 1000 : ℚ) ((r.elapsed_ms : ℚ) / 1000)).floor)
      else none
    speedup_vs_1 := speedupVs1 baseMs r.elapsed_ms }

/-- Embeds the `rows` list of the crawler BenchmarkSummary document. -/
def crawlerSummaryRows (rows : List CrawlerRow) : List CrawlerSummaryRow :=
  rows.map (mkCrawlerSummaryRow (crawlerBaseMs rows))

/-- Embeds bench_workers.main for mode=cpu after argument parsing: clamps
the worker range, runs the sweep, and on success writes the summary rows
and exits 0. An uncaught SystemExit from a failed child (or a contract
violation) terminates with a non-zero code and writes no summary. -/
def bench_main_cpu (child : Nat → Nat × Option CpuMetaDoc) (wall : Nat → Nat)
    (wminArg wmaxArg : Nat) : Nat × Option (List CpuSummaryRow) :=
  let wmin := max 1 wminArg
  let wmax := max wmin wmaxArg
  match bench_cpu child wall wmin wmax with
  | .error _ => (1, none)
  | .ok rows => (0, some (cpuSummaryRows rows))

/-! ## Helper lemmas -/

theorem charListLeB_refl : ∀ xs, charListLeB xs xs = true := by
  intro xs
  induction xs with
  | nil => rfl
  | cons a as ih => simp [charListLeB, ih]

theorem strLeB_refl (a : String) : strLeB a a = true := charListLeB_refl a.data

/-- Two permuted lists that are both sorted by a string key, in which the
key determines the element, are equal. This is what makes the emitted,
sorted payload independent of the pool's completion order. -/
theorem sorted_perm_eq_of_key {α : Type} (key : α → String) :
    ∀ (l₁ l₂ : List α), l₁.Perm l₂ → l₁.Sorted (keyLe key) → l₂.Sorted (keyLe key) →
      (∀ a ∈ l₁, ∀ b ∈ l₁, key a = key b → a = b) → l₁ = l₂ := by
  intro l₁
  induction l₁ with
  | nil =>
    intro l₂ hp _ _ _
    exact (hp.symm.eq_nil).symm
  | cons a t ih =>
    intro l₂ hp hs₁ hs₂ hk
    cases l₂ with
    | nil => exact absurd hp.eq_nil (by simp)
    | cons b t₂ =>
      have ha2 : a ∈ b :: t₂ := hp.subset (List.mem_cons_self a t)
      have hb1 : b ∈ a :: t := hp.symm.subset (List.mem_cons_self b t₂)
      have hab : keyLe key a b := by
        rcases List.mem_cons.mp hb1 with h | h
        · rw [h]; exact strLeB_refl _
        · exact (List.sorted_cons.mp hs₁).1 b h
      have hba : keyLe key b a := by
        rcases List.mem_cons.mp ha2 with h | h
        · rw [h]; exact strLeB_refl _
        · exact (List.sorted_cons.mp hs₂).1 a h
      have hkey : key a = key b := strLeB_antisymm hab hba
      have hae : a = b := hk a (List.mem_cons_self a t) b hb1 hkey
      subst hae
      have ht : t.Perm t₂ := hp.cons_inv
      have heq : t = t₂ :=
        ih t₂ ht (List.sorted_cons.mp hs₁).2 (List.sorted_cons.mp hs₂).2
          (fun x hx y hy hxy => hk x (List.mem_cons_of_mem a hx) y (List.mem_cons_of_mem a hy) hxy)
      rw [heq]

/-- Per-file result as a function of the path alone, on a filesystem where
the path is readable. -/
def readCount (fs : String → Option (List Nat)) (p : String) : FileCount :=
  mkFileCount p ((fs p).getD [])

theorem readCount_path (fs : String → Option (List Nat)) (p : String) :
    (readCount fs p).path = p := rfl

theorem collectCounts_eq_map {fs : String → Option (List Nat)} :
    ∀ {arrival : List String}, (∀ p ∈ arrival, (fs p).isSome) →
      collectCounts fs arrival = some (arrival.map (readCount fs)) := by
  intro arrival
  induction arrival with
  | nil => intro _; rfl
  | cons p ps ih =>
    intro h
    have hp := h p (List.mem_cons_self p ps)
    obtain ⟨bs, hbs⟩ := Option.isSome_iff_exists.mp hp
    have hrest := ih (fun q hq => h q (List.mem_cons_of_mem p hq))
    simp [collectCounts, count_words_in_file, hbs, hrest, readCount]

theorem collectCounts_eq_none {fs : String → Option (List Nat)} :
    ∀ {arrival : List String}, (∃ p ∈ arrival, fs p = none) →
      collectCounts fs arrival = none := by
  intro arrival
  induction arrival with
  | nil => intro h; simp at h
  | cons p ps ih =>
    intro h
    rcases h with ⟨q, hq, hnone⟩
    rcases List.mem_cons.mp hq with h | h
    · subst h
      simp [collectCounts, count_words_in_file, hnone]
    · have hps := ih ⟨q, h, hnone⟩
      cases hc : count_words_in_file fs p <;> simp [collectCounts, hc, hps]

theorem collectCounts_mem {fs : String → Option (List Nat)} :
    ∀ {arrival results}, collectCounts fs arrival = some results →
      ∀ fc ∈ results, ∃ p bs, fs p = some bs ∧ fc = mkFileCount p bs := by
  intro arrival
  induction arrival with
  | nil =>
    intro results h fc hfc
    simp only [collectCounts, Option.some.injEq] at h
    subst h
    simp at hfc
  | cons p ps ih =>
    intro results h fc hfc
    cases hc : count_words_in_file fs p <;> rw [collectCounts, hc] at h
    · exact absurd h (by simp)
    case some fc0 =>
      cases hx : collectCounts fs ps <;> rw [hx] at h
      · exact absurd h (by simp)
      case some rest =>
        simp only [Option.some.injEq] at h
        subst h
        rcases List.mem_cons.mp hfc with h | h
        · subst h
          obtain ⟨bs, hbs, hmk⟩ := Option.map_eq_some'.mp hc
          exact ⟨p, bs, hbs, hmk.symm⟩
        · exact ih hx fc h

theorem foldl_merge_counts (l : List (Multiset String)) :
    ∀ acc, l.foldl merge_counts acc = acc + l.sum := by
  induction l with
  | nil => intro acc; simp
  | cons a t ih =>
    intro acc
    simp [List.foldl_cons, merge_counts, ih, add_assoc]

theorem mergeAll_eq_sum (l : List (Multiset String)) : mergeAll l = l.sum := by
  simp [mergeAll, foldl_merge_counts]

theorem card_list_sum (l : List (Multiset String)) :
    Multiset.card l.sum = (l.map Multiset.card).sum := by
  induction l with
  | nil => simp
  | cons a t ih => simp [ih]

theorem mkFileCount_card (p : String) (bytes : List Nat) :
    Multiset.card (mkFileCount p bytes).counts = (mkFileCount p bytes).tokens := by
  simp [mkFileCount]

theorem runCpu_perm (fs : String → Option (List Nat)) (w w' : Nat) {a a' : List String}
    (h : a.Perm a') : runCpu fs w a = runCpu fs w' a' := by
  by_cases hall : ∀ p ∈ a, (fs p).isSome
  · have hall' : ∀ p ∈ a', (fs p).isSome := fun p hp => hall p (h.symm.subset hp)
    rw [runCpu, runCpu, collectCounts_eq_map hall, collectCounts_eq_map hall']
    simp only [Option.map_some']
    have hperm : (a.map (readCount fs)).Perm (a'.map (readCount fs)) := h.map _
    have hsorteq :
        List.insertionSort pathLe (a.map (readCount fs)) =
          List.insertionSort pathLe (a'.map (readCount fs)) := by
      apply sorted_perm_eq_of_key FileCount.path
      · exact (List.perm_insertionSort _ _).trans (hperm.trans (List.perm_insertionSort _ _).symm)
      · exact List.sorted_insertionSort _ _
      · exact List.sorted_insertionSort _ _
      · intro x hx y hy hxy
        have hx2 : x ∈ a.map (readCount fs) := (List.perm_insertionSort _ _).subset hx
        have hy2 : y ∈ a.map (readCount fs) := (List.perm_insertionSort _ _).subset hy
        obtain ⟨px, _, hpx⟩ := List.mem_map.mp hx2
        obtain ⟨py, _, hpy⟩ := List.mem_map.mp hy2
        rw [← hpx, ← hpy] at hxy ⊢
        rw [readCount_path, readCount_path] at hxy
        rw [hxy]
    rw [hsorteq, mergeAll_eq_sum, mergeAll_eq_sum, ((hperm.map FileCount.counts).sum_eq)]
  · push_neg at hall
    obtain ⟨p, hp, hn⟩ := hall
    have hnone : fs p = none := Option.not_isSome_iff_eq_none.mp hn
    rw [runCpu, runCpu, collectCounts_eq_none ⟨p, hp, hnone⟩,
      collectCounts_eq_none ⟨p, h.subset hp, hnone⟩]

theorem runCpu_some_parts {fs : String → Option (List Nat)} {w : Nat} {arrival : List String}
    {pf : List FileCount} {total : Multiset String}
    (h : runCpu fs w arrival = some (pf, total)) :
    ∃ results, collectCounts fs arrival = some results ∧
      pf = List.insertionSort pathLe results ∧ total = mergeAll (results.map FileCount.counts) := by
  rw [runCpu, Option.map_eq_some'] at h
  obtain ⟨results, h1, h2⟩ := h
  obtain ⟨h3, h4⟩ := Prod.mk.injEq _ _ _ _ |>.mp h2
  exact ⟨results, h1, h3.symm, h4.symm⟩

theorem runCpu_card_eq {fs : String → Option (List Nat)} {w : Nat} {arrival : List String}
    {pf : List FileCount} {total : Multiset String}
    (h : runCpu fs w arrival = some (pf, total)) :
    Multiset.card total = cpuTotalTokens pf := by
  obtain ⟨results, hc, hpf, htot⟩ := runCpu_some_parts h
  have hmem := collectCounts_mem hc
  have hcards : results.map (fun fc => Multiset.card fc.counts) =
      results.map FileCount.tokens := by
    apply List.map_congr_left
    intro fc hfc
    obtain ⟨p, bs, _, hfceq⟩ := hmem fc hfc
    rw [hfceq]
    exact mkFileCount_card p bs
  have hperm : pf.Perm results := hpf ▸ List.perm_insertionSort _ _
  calc Multiset.card total
      = ((results.map FileCount.counts).map Multiset.card).sum := by
        rw [htot, mergeAll_eq_sum, card_list_sum]
    _ = (results.map FileCount.tokens).sum := by
        rw [List.map_map]; exact congrArg List.sum hcards
    _ = (pf.map FileCount.tokens).sum := ((hperm.map FileCount.tokens).sum_eq).symm
    _ = cpuTotalTokens pf := rfl

theorem fetch_url (web : String → FetchOutcome) (parse : String → List String × Option String)
    (clock : String → Nat) (timeoutS : ℚ) (url : String) :
    (fetch_and_analyze web parse clock timeoutS url).url = url := by
  rw [fetch_and_analyze]
  cases web url <;> rfl

theorem runIo_sorted (web : String → FetchOutcome) (parse : String → List String × Option String)
    (clock : String → Nat) (workers : Nat) (timeoutS : ℚ) (arrival : List String) :
    (runIo web parse clock workers timeoutS arrival).Sorted urlLe :=
  List.sorted_insertionSort _ _

theorem runIo_perm (web : String → FetchOutcome) (parse : String → List String × Option String)
    (clock : String → Nat) (w w' : Nat) (timeoutS : ℚ) {u u' : List String}
    (h : u.Perm u') :
    runIo web parse clock w timeoutS u = runIo web parse clock w' timeoutS u' := by
  have hperm : (u.map (fetch_and_analyze web parse clock timeoutS)).Perm
      (u'.map (fetch_and_analyze web parse clock timeoutS)) := h.map _
  apply sorted_perm_eq_of_key FetchResult.url
  · exact (List.perm_insertionSort _ _).trans (hperm.trans (List.perm_insertionSort _ _).symm)
  · exact List.sorted_insertionSort _ _
  · exact List.sorted_insertionSort _ _
  · intro x hx y hy hxy
    have hx2 : x ∈ u.map (fetch_and_analyze web parse clock timeoutS) :=
      (List.perm_insertionSort _ _).subset hx
    have hy2 : y ∈ u.map (fetch_and_analyze web parse clock timeoutS) :=
      (List.perm_insertionSort _ _).subset hy
    obtain ⟨px, _, hpx⟩ := List.mem_map.mp hx2
    obtain ⟨py, _, hpy⟩ := List.mem_map.mp hy2
    rw [← hpx, ← hpy] at hxy ⊢
    rw [fetch_url, fetch_url] at hxy
    rw [hxy]

theorem runIo_perm_map (web : String → FetchOutcome)
    (parse : String → List String × Option String) (clock : String → Nat)
    (workers : Nat) (timeoutS : ℚ) (arrival : List String) :
    (runIo web parse clock workers timeoutS arrival).Perm
      (arrival.map (fetch_and_analyze web parse clock timeoutS)) :=
  List.perm_insertionSort _ _

theorem benchCpuRuns_error (child : Nat → Nat × Option CpuMetaDoc) (wall : Nat → Nat) :
    ∀ n w, (∃ k, k < n ∧ (child (w + k)).1 ≠ 0) →
      ∃ e, benchCpuRuns child wall w n = .error e := by
  intro n
  induction n with
  | zero =>
    intro w h
    obtain ⟨k, hk, _⟩ := h
    omega
  | succ n ih =>
    intro w h
    obtain ⟨k, hk, hrc⟩ := h
    by_cases h0 : (child w).1 ≠ 0
    · exact ⟨"Błąd uruchomienia (" ++ toString (child w).1 ++ ")",
        by simp [benchCpuRuns, h0]⟩
    · push_neg at h0
      have hk0 : k ≠ 0 := by
        intro hz
        rw [hz, Nat.add_zero] at hrc
        exact hrc h0
      have hrec : ∃ k2, k2 < n ∧ (child (w + 1 + k2)).1 ≠ 0 := by
        refine ⟨k - 1, by omega, ?_⟩
        have hwk : w + 1 + (k - 1) = w + k := by omega
        rw [hwk]
        exact hrc
      obtain ⟨e, he⟩ := ih (w + 1) hrec
      cases hd : (child w).2 with
      | none => exact ⟨"JSON output must be an object", by simp [benchCpuRuns, h0, hd]⟩
      | some m => exact ⟨e, by simp [benchCpuRuns, h0, hd, he, Except.map]⟩

/-! ## Claims -/

/-- C1 (amended): for a completed sweep whose first row is the 1-worker run
and whose recorded elapsed times are non-zero, every BenchmarkSummary row
for worker count N carries speedup_vs_1 = elapsed_ms(1 worker) /
elapsed_ms(N workers), and the 1-worker row (the summary's first row)
carries exactly 1.0; this holds in both sweep modes. (As stated, the claim
fails when a recorded elapsed_ms is 0: the code then stores None, see the
counterexample.) -/
theorem bench_speedup_amended
    (rows : List CpuRow) (base r : CpuRow)
    (crows : List CrawlerRow) (cbase cr : CrawlerRow)
    (hb : rows.head? = some base) (hbw : base.workers = 1)
    (hr : r ∈ rows) (h0 : base.elapsed_ms ≠ 0) (h1 : r.elapsed_ms ≠ 0)
    (hcb : crows.head? = some cbase) (hcbw : cbase.workers = 1)
    (hcr : cr ∈ crows) (hc0 : cbase.elapsed_ms ≠ 0) (hc1 : cr.elapsed_ms ≠ 0) :
    (mkCpuSummaryRow (cpuBaseMs rows) r ∈ cpuSummaryRows rows ∧
      (mkCpuSummaryRow (cpuBaseMs rows) r).speedup_vs_1 =
        some ((base.elapsed_ms : ℚ) / (r.elapsed_ms : ℚ)) ∧
      (cpuSummaryRows rows).head? = some (mkCpuSummaryRow (cpuBaseMs rows) base) ∧
      (mkCpuSummaryRow (cpuBaseMs rows) base).workers = 1 ∧
      (mkCpuSummaryRow (cpuBaseMs rows) base).speedup_vs_1 = some 1) ∧
    (mkCrawlerSummaryRow (crawlerBaseMs crows) cr ∈ crawlerSummaryRows crows ∧
      (mkCrawlerSummaryRow (crawlerBaseMs crows) cr).speedup_vs_1 =
        some ((cbase.elapsed_ms : ℚ) / (cr.elapsed_ms : ℚ)) ∧
      (crawlerSummaryRows crows).head? =
        some (mkCrawlerSummaryRow (crawlerBaseMs crows) cbase) ∧
      (mkCrawlerSummaryRow (crawlerBaseMs crows) cbase).workers = 1 ∧
      (mkCrawlerSummaryRow (crawlerBaseMs crows) cbase).speedup_vs_1 = some 1) := by
  have hbase : cpuBaseMs rows = base.elapsed_ms := by rw [cpuBaseMs, hb]
  have hcbase : crawlerBaseMs crows = cbase.elapsed_ms := by rw [crawlerBaseMs, hcb]
  constructor
  · refine ⟨List.mem_map_of_mem _ hr, ?_, ?_, hbw, ?_⟩
    · rw [hbase]
      simp [mkCpuSummaryRow, speedupVs1, h0, h1]
    · rw [cpuSummaryRows, List.head?_map, hb]
      rfl
    · rw [hbase]
      simp only [mkCpuSummaryRow, speedupVs1, if_pos (And.intro h0 h0)]
      rw [div_self (by exact_mod_cast h0)]
  · refine ⟨List.mem_map_of_mem _ hcr, ?_, ?_, hcbw, ?_⟩
    · rw [hcbase]
      simp [mkCrawlerSummaryRow, speedupVs1, hc0, hc1]
    · rw [crawlerSummaryRows, List.head?_map, hcb]
      rfl
    · rw [hcbase]
      simp only [mkCrawlerSummaryRow, speedupVs1, if_pos (And.intro hc0 hc0)]
      rw [div_self (by exact_mod_cast hc0)]

/-- C1 counterexample: a completed one-run sweep whose 1-worker run records
elapsed_ms = 0 yields a summary whose worker-count-1 row carries
speedup_vs_1 = None, not exactly 1.0 as claimed. -/
theorem bench_speedup_counterexample :
    (cpuSummaryRows [⟨1, 0, 0, 0, 0⟩]).map (fun s => (s.workers, s.speedup_vs_1)) =
      [(1, none)] ∧ (none : Option ℚ) ≠ some 1 := by
  constructor
  · rfl
  · simp

/-- Concrete CPU sweep rows used by the C1 witness. -/
def rowsW : List CpuRow := [⟨1, 100, 3, 1000, 10⟩, ⟨2, 50, 3, 1000, 10⟩]

/-- Concrete crawler sweep rows used by the C1 witness. -/
def crowsW : List CrawlerRow := [⟨1, 200, 4, 4, 0, 50⟩, ⟨2, 80, 4, 4, 0, 20⟩]

/-- Witness for C1 (amended) at a concrete two-row sweep in each mode. -/
theorem bench_speedup_amended_witness :
    (mkCpuSummaryRow (cpuBaseMs rowsW) ⟨2, 50, 3, 1000, 10⟩).speedup_vs_1 =
      some ((100 : ℚ) / (50 : ℚ)) ∧
    (mkCpuSummaryRow (cpuBaseMs rowsW) ⟨1, 100, 3, 1000, 10⟩).speedup_vs_1 = some 1 ∧
    (mkCrawlerSummaryRow (crawlerBaseMs crowsW) ⟨2, 80, 4, 4, 0, 20⟩).speedup_vs_1 =
      some ((200 : ℚ) / (80 : ℚ)) := by
  have h := bench_speedup_amended rowsW ⟨1, 100, 3, 1000, 10⟩ ⟨2, 50, 3, 1000, 10⟩
    crowsW ⟨1, 200, 4, 4, 0, 50⟩ ⟨2, 80, 4, 4, 0, 20⟩
    rfl rfl (by decide) (by decide) (by decide)
    rfl rfl (by decide) (by decide) (by decide)
  exact ⟨h.1.2.1, h.1.2.2.2.2, h.2.2.1⟩

/-- C2: in CPU mode, meta.total_tokens is the sum of the per_file token
counts, and the total number of entries of the merged frequency table (the
sum of all its counts) equals meta.total_tokens. -/
theorem cpu_conservation
    (fs : String → Option (List Nat)) (paths arrival : List String)
    (workersArg elapsedMs : Nat) (pf : List FileCount) (total : Multiset String)
    (doc : CpuRunDoc)
    (hrun : runCpu fs (max 1 workersArg) arrival = some (pf, total))
    (hdoc : (cpu_main fs paths workersArg arrival elapsedMs).2 = some doc) :
    doc.meta.total_tokens = (doc.per_file.map Prod.snd).sum ∧
    Multiset.card total = doc.meta.total_tokens := by
  rw [cpu_main] at hdoc
  by_cases hpaths : paths = []
  · rw [if_pos hpaths] at hdoc
    exact absurd hdoc (by simp)
  · rw [if_neg hpaths] at hdoc
    simp only [hrun, Option.some.injEq] at hdoc
    subst hdoc
    constructor
    · simp only [cpuTotalTokens, List.map_map]
      rfl
    · exact runCpu_card_eq hrun

/-- Concrete filesystem used by the CPU-mode witnesses: two readable text
files, "a.txt" containing "a b" and every other path containing "cc". -/
def fsW : String → Option (List Nat) := fun p =>
  if p = "a.txt" then some [97, 32, 98] else some [99, 99]

/-- Expected per-file results of `fsW` over ["a.txt", "b.txt"]. -/
def pfW : List FileCount :=
  [⟨"a.txt", 2, (["a", "b"] : List String)⟩, ⟨"b.txt", 1, (["cc"] : List String)⟩]

/-- Expected merged table of `fsW` over ["a.txt", "b.txt"]. -/
def totalW : Multiset String := (["cc", "a", "b"] : List String)

/-- Expected CPU RunResult document of `fsW` over ["a.txt", "b.txt"]. -/
def docW : CpuRunDoc :=
  ⟨⟨"cpu-process-pool", 1, 2, 3, 3, 7⟩, [("a.txt", 2), ("b.txt", 1)]⟩

/-- Witness for C2 at a concrete two-file run. -/
theorem cpu_conservation_witness :
    docW.meta.total_tokens = (docW.per_file.map Prod.snd).sum ∧
    Multiset.card totalW = docW.meta.total_tokens :=
  cpu_conservation fsW ["a.txt", "b.txt"] ["b.txt", "a.txt"] 1 7 pfW totalW docW
    (by decide) (by decide)

/-- C3: merging per-file frequency maps in any permutation of arrival
order yields an identical final frequency table. -/
theorem merge_order_independent (l₁ l₂ : List (Multiset String)) (h : l₁.Perm l₂) :
    mergeAll l₁ = mergeAll l₂ := by
  rw [mergeAll_eq_sum, mergeAll_eq_sum]
  exact h.sum_eq

/-- Witness for C3 at two concrete arrival orders. -/
theorem merge_order_independent_witness :
    mergeAll [(["a", "b"] : List String), (["a"] : List String)] =
      mergeAll [(["a"] : List String), (["a", "b"] : List String)] :=
  merge_order_independent _ _ (by decide)

/-- C4: for a fixed input set, CPU runs with any two worker counts (and any
two completion orders) produce identical unique_tokens and an identical
merged frequency table. -/
theorem cpu_worker_count_independent
    (fs : String → Option (List Nat)) (paths a₁ a₂ : List String) (w₁ w₂ : Nat)
    (h₁ : a₁.Perm paths) (h₂ : a₂.Perm paths) :
    (runCpu fs w₁ a₁).map (fun res => uniqueTokens res.2) =
      (runCpu fs w₂ a₂).map (fun res => uniqueTokens res.2) ∧
    (runCpu fs w₁ a₁).map (fun res => res.2) = (runCpu fs w₂ a₂).map (fun res => res.2) := by
  have h := runCpu_perm fs w₁ w₂ (h₁.trans h₂.symm)
  rw [h]
  exact ⟨rfl, rfl⟩

/-- Witness for C4 with worker counts 1 and 3 over the same two files. -/
theorem cpu_worker_count_independent_witness :
    (runCpu fsW 1 ["a.txt", "b.txt"]).map (fun res => uniqueTokens res.2) =
      (runCpu fsW 3 ["b.txt", "a.txt"]).map (fun res => uniqueTokens res.2) ∧
    (runCpu fsW 1 ["a.txt", "b.txt"]).map (fun res => res.2) =
      (runCpu fsW 3 ["b.txt", "a.txt"]).map (fun res => res.2) :=
  cpu_worker_count_independent fsW ["a.txt", "b.txt"] ["a.txt", "b.txt"]
    ["b.txt", "a.txt"] 1 3 (by decide) (by decide)

theorem take_data_append (p q : String) (n : Nat) (h : n ≤ p.data.length) :
    ((p ++ q).data).take n = p.data.take n := by
  rw [String.data_append]
  exact List.take_append_of_le_length h

/-- C5: in I/O mode a fetch failure for one URL yields a failed UnitResult
with ok=false, an error classified as http-status-error, transport-error
or other-exception (with the HTTP status code when available), never
aborts the other units — every submitted URL still gets exactly its own
result — and a per-fetch timeout (a URLError from urlopen) is classified
as a transport-error failure, not a fatal run error. -/
theorem io_failure_isolation
    (web : String → FetchOutcome) (parse : String → List String × Option String)
    (clock : String → Nat) (timeoutS : ℚ) (url : String) :
    (∀ c, web url = .httpError c →
        (fetch_and_analyze web parse clock timeoutS url).ok = false ∧
        (fetch_and_analyze web parse clock timeoutS url).status = some c ∧
        classifyError (fetch_and_analyze web parse clock timeoutS url).error =
          some .httpStatusError) ∧
    (∀ reason, web url = .urlError reason →
        (fetch_and_analyze web parse clock timeoutS url).ok = false ∧
        (fetch_and_analyze web parse clock timeoutS url).status = none ∧
        classifyError (fetch_and_analyze web parse clock timeoutS url).error =
          some .transportError) ∧
    (∀ ename msg, web url = .otherExc ename msg →
        (fetch_and_analyze web parse clock timeoutS url).ok = false ∧
        classifyError (fetch_and_analyze web parse clock timeoutS url).error =
          some .otherException) ∧
    (web url = timeoutOutcome →
        (fetch_and_analyze web parse clock timeoutS url).ok = false ∧
        classifyError (fetch_and_analyze web parse clock timeoutS url).error =
          some .transportError) ∧
    (∀ (workers : Nat) (arrival : List String),
        (runIo web parse clock workers timeoutS arrival).Perm
          (arrival.map (fetch_and_analyze web parse clock timeoutS))) := by
  have hhttp : ∀ c, web url = .httpError c →
      (fetch_and_analyze web parse clock timeoutS url).ok = false ∧
      (fetch_and_analyze web parse clock timeoutS url).status = some c ∧
      classifyError (fetch_and_analyze web parse clock timeoutS url).error =
        some .httpStatusError := by
    intro c h
    rw [fetch_and_analyze, h]
    refine ⟨rfl, rfl, ?_⟩
    show classifyError (some ("HTTPError: " ++ toString c)) = some .httpStatusError
    rw [classifyError]
    rw [if_pos]
    rw [take_data_append _ _ 9 (by decide)]
    decide
  have hurl : ∀ reason, web url = .urlError reason →
      (fetch_and_analyze web parse clock timeoutS url).ok = false ∧
      (fetch_and_analyze web parse clock timeoutS url).status = none ∧
      classifyError (fetch_and_analyze web parse clock timeoutS url).error =
        some .transportError := by
    intro reason h
    rw [fetch_and_analyze, h]
    refine ⟨rfl, rfl, ?_⟩
    show classifyError (some ("URLError: " ++ reason)) = some .transportError
    rw [classifyError]
    rw [if_neg, if_pos]
    · rw [take_data_append _ _ 8 (by decide)]
      decide
    · rw [take_data_append _ _ 9 (by decide)]
      decide
  refine ⟨hhttp, hurl, ?_, ?_, ?_⟩
  · intro ename msg h
    rw [fetch_and_analyze, h]
    refine ⟨rfl, ?_⟩
    show classifyError (some ("Exception: " ++ ename ++ ": " ++ msg)) = some .otherException
    rw [classifyError]
    rw [if_neg, if_neg, if_pos]
    · rw [String.append_assoc, String.append_assoc]
      rw [take_data_append _ _ 9 (by decide)]
      decide
    · rw [String.append_assoc, String.append_assoc]
      rw [take_data_append _ _ 8 (by decide)]
      decide
    · rw [String.append_assoc, String.append_assoc]
      rw [take_data_append _ _ 9 (by decide)]
      decide
  · intro h
    exact ⟨(hurl "timed out" h).1, (hurl "timed out" h).2.2⟩
  · intro workers arrival
    exact runIo_perm_map web parse clock workers timeoutS arrival

/-- Concrete network for the C5 witness: one URL answering 404, one timing
out, everything else succeeding. -/
def webW : String → FetchOutcome := fun u =>
  if u = "http://a" then .httpError 404
  else if u = "http://b" then timeoutOutcome
  else .ok (some 200) "<html><title>T</title>x y</html>"

/-- Concrete HTML parser environment for the I/O witnesses. -/
def parseW : String → List String × Option String := fun _ => (["T", " x y "], some "T")

/-- Concrete per-URL clock for the I/O witnesses. -/
def clockW : String → Nat := fun _ => 5

/-- Witness for C5: the 404 URL and the timed-out URL at concrete inputs,
plus one-result-per-URL over a concrete two-URL arrival order. -/
theorem io_failure_isolation_witness :
    ((fetch_and_analyze webW parseW clockW 10 "http://a").ok = false ∧
      (fetch_and_analyze webW parseW clockW 10 "http://a").status = some 404 ∧
      classifyError (fetch_and_analyze webW parseW clockW 10 "http://a").error =
        some .httpStatusError) ∧
    ((fetch_and_analyze webW parseW clockW 10 "http://b").ok = false ∧
      classifyError (fetch_and_analyze webW parseW clockW 10 "http://b").error =
        some .transportError) ∧
    (runIo webW parseW clockW 2 10 ["http://b", "http://a"]).Perm
      (["http://b", "http://a"].map (fetch_and_analyze webW parseW clockW 10)) := by
  have ha := io_failure_isolation webW parseW clockW 10 "http://a"
  have hb := io_failure_isolation webW parseW clockW 10 "http://b"
  exact ⟨ha.1 404 (by decide), hb.2.2.2.1 (by decide), ha.2.2.2.2 2 ["http://b", "http://a"]⟩

/-- C6: within one pool invocation the emitted payload is deterministically
sorted before it is visible — CPU per-file results by path, I/O
UnitResults by URL — and is identical for any two completion orders of the
same work-unit set (and any worker counts). -/
theorem emitted_payload_sorted
    (fs : String → Option (List Nat)) (w₁ w₂ : Nat) (a₁ a₂ : List String)
    (ha : a₁.Perm a₂)
    (web : String → FetchOutcome) (parse : String → List String × Option String)
    (clock : String → Nat) (iw₁ iw₂ : Nat) (t : ℚ) (u₁ u₂ : List String)
    (hu : u₁.Perm u₂) :
    (∀ pf total, runCpu fs w₁ a₁ = some (pf, total) → pf.Sorted pathLe) ∧
    runCpu fs w₁ a₁ = runCpu fs w₂ a₂ ∧
    (runIo web parse clock iw₁ t u₁).Sorted urlLe ∧
    runIo web parse clock iw₁ t u₁ = runIo web parse clock iw₂ t u₂ := by
  refine ⟨?_, runCpu_perm fs w₁ w₂ ha, runIo_sorted web parse clock iw₁ t u₁,
    runIo_perm web parse clock iw₁ iw₂ t hu⟩
  intro pf total h
  obtain ⟨results, _, hpf, _⟩ := runCpu_some_parts h
  rw [hpf]
  exact List.sorted_insertionSort _ _

/-- Witness for C6 at concrete runs with different worker counts and
completion orders. -/
theorem emitted_payload_sorted_witness :
    runCpu fsW 1 ["a.txt", "b.txt"] = runCpu fsW 3 ["b.txt", "a.txt"] ∧
    runIo webW parseW clockW 1 10 ["http://a", "http://b"] =
      runIo webW parseW clockW 4 10 ["http://b", "http://a"] := by
  have h := emitted_payload_sorted fsW 1 3 ["a.txt", "b.txt"] ["b.txt", "a.txt"]
    (by decide) webW parseW clockW 1 4 10 ["http://a", "http://b"]
    ["http://b", "http://a"] (by decide)
  exact ⟨h.2.1, h.2.2.2⟩

/-- C7: an input listing resolving to zero work units makes either
Workload Runner exit with code 2 and write no RunResult document. -/
theorem empty_listing_exit_2
    (fs : String → Option (List Nat)) (web : String → FetchOutcome)
    (parse : String → List String × Option String) (clock : String → Nat)
    (w iw : Nat) (t : ℚ) (arr uarr : List String) (e₁ e₂ : Nat) :
    cpu_main fs [] w arr e₁ = (2, none) ∧
    io_main web parse clock [] iw t uarr e₂ = (2, none) :=
  ⟨rfl, rfl⟩

/-- C8: a child Workload Runner exiting with non-zero status makes the
orchestrator abort the whole remaining sweep as an error (surfaced, not
silently degraded) and write no BenchmarkSummary: the process exits
non-zero with no summary rows. -/
theorem child_failure_aborts_sweep
    (child : Nat → Nat × Option CpuMetaDoc) (wall : Nat → Nat)
    (wmin wmax w : Nat) (h1w : 1 ≤ wmin) (h1 : wmin ≤ w) (h2 : w ≤ wmax)
    (hrc : (child w).1 ≠ 0) :
    (∃ e, bench_cpu child wall wmin wmax = .error e) ∧
    bench_main_cpu child wall wmin wmax = (1, none) := by
  have hb : ∃ e, bench_cpu child wall wmin wmax = .error e := by
    apply benchCpuRuns_error child wall (wmax + 1 - wmin) wmin
    refine ⟨w - wmin, by omega, ?_⟩
    have hww : wmin + (w - wmin) = w := by omega
    rw [hww]
    exact hrc
  refine ⟨hb, ?_⟩
  obtain ⟨e, he⟩ := hb
  have hmin : max 1 wmin = wmin := by omega
  have hmax : max wmin wmax = wmax := by omega
  rw [bench_main_cpu]
  simp only [hmin, hmax, he]

/-- Concrete child-runner environment for the C8 witness: worker count 2
exits with code 3, every other run succeeds. -/
def childW : Nat → Nat × Option CpuMetaDoc := fun w =>
  if w = 2 then (3, none) else (0, some ⟨"cpu-process-pool", w, 2, 3, 3, 10⟩)

/-- Concrete orchestrator wall clock for the C8 witness. -/
def wallW : Nat → Nat := fun _ => 12

/-- Witness for C8 at the concrete sweep 1..3 whose second child fails. -/
theorem child_failure_aborts_sweep_witness :
    (∃ e, bench_cpu childW wallW 1 3 = .error e) ∧
    bench_main_cpu childW wallW 1 3 = (1, none) :=
  child_failure_aborts_sweep childW wallW 1 3 2 (by decide) (by decide) (by decide)
    (by decide)

/-- C9 (amended): for every successfully fetched page, word_count equals
the number of \b\w+\b word-character runs in the text extracted from the
page's markup. (As stated — "whitespace-delimited word tokens" — the claim
fails: see the counterexample, where the code counts 2 on an extracted
text with a single whitespace-delimited token.) -/
theorem io_word_count_amended
    (web : String → FetchOutcome) (parse : String → List String × Option String)
    (clock : String → Nat) (t : ℚ) (url : String) (status : Option Nat) (body : String)
    (h : web url = .ok status body) :
    (fetch_and_analyze web parse clock t url).word_count =
      some (countWords (extractedText (parse body).1)) := by
  rw [fetch_and_analyze, h]

/-- Concrete network for the C9 theorems: every URL succeeds with the same
small page. -/
def webC : String → FetchOutcome := fun _ => .ok (some 200) "<p>a,b</p>"

/-- Concrete parser environment whose extracted text is "a,b". -/
def parseC : String → List String × Option String := fun _ => (["a,b"], none)

/-- Concrete per-URL clock for the C9 theorems. -/
def clockC : String → Nat := fun _ => 7

/-- C9 counterexample: a successful fetch whose extracted text is "a,b"
records word_count = 2, while the number of whitespace-delimited tokens of
that text is 1. -/
theorem io_word_count_counterexample :
    (fetch_and_analyze webC parseC clockC 10 "http://x").word_count = some 2 ∧
    whitespaceTokenCount (extractedText ["a,b"]) = 1 ∧ (2 : Nat) ≠ 1 := by
  refine ⟨by decide, by decide, by decide⟩

/-- Witness for C9 (amended) at the concrete successful fetch. -/
theorem io_word_count_amended_witness :
    (fetch_and_analyze webC parseC clockC 10 "http://x").word_count =
      some (countWords (extractedText (parseC "<p>a,b</p>").1)) :=
  io_word_count_amended webC parseC clockC 10 "http://x" (some 200) "<p>a,b</p>"
    (by decide)

/-- C10: a readable file is always processed by count_words_in_file, even
when its bytes are not valid UTF-8 (strict decoding fails but the replace
handler cannot); the analyzer fails exactly on OS-level read errors, and a
run over readable files always succeeds. -/
theorem cpu_undecodable_input_processed
    (fs : String → Option (List Nat)) (path : String) (bytes : List Nat)
    (h : fs path = some bytes) (hbad : utf8DecodeStrict bytes = none) :
    count_words_in_file fs path = some (mkFileCount path bytes) ∧
    (∀ (g : String → Option (List Nat)) (q : String),
        count_words_in_file g q = none ↔ g q = none) ∧
    (∀ (w : Nat) (arrival : List String), (∀ p ∈ arrival, (fs p).isSome) →
        (runCpu fs w arrival).isSome = true) := by
  refine ⟨?_, ?_, ?_⟩
  · rw [count_words_in_file, h]
    rfl
  · intro g q
    rw [count_words_in_file]
    cases g q <;> simp
  · intro w arrival hall
    rw [runCpu, collectCounts_eq_map hall]
    rfl

/-- Concrete filesystem for the C10 witness: every file contains the
single byte 0xFF, which is invalid UTF-8. -/
def fsBad : String → Option (List Nat) := fun _ => some [255]

/-- Witness for C10: the byte 0xFF fails strict decoding, yet the analyzer
processes the file. -/
theorem cpu_undecodable_input_processed_witness :
    utf8DecodeStrict [255] = none ∧
    count_words_in_file fsBad "f.txt" = some (mkFileCount "f.txt" [255]) :=
  ⟨by decide,
    (cpu_undecodable_input_processed fsBad "f.txt" [255] (by decide) (by decide)).1⟩
